import Mathlib

/-!
Verification of the common-beam resolution engine of `racs_tools/beamcon_3D.py`
(RACS-tools). The script plans a common elliptical-Gaussian beam across a set
of per-channel image cubes and re-convolves every channel to it.

Shallow embedding conventions:

* An IEEE float that the script manipulates is modelled by `FVal`: either `nan`
  or a rational value. Arithmetic propagates `nan`; ordered comparisons with
  `nan` are `false` (IEEE semantics, matching numpy).
* A `radio_beam.Beam` as seen by this script is a triple (major, minor, pa) of
  `FVal`s; the script keeps major/minor in arcsec and pa in deg at every point
  where it stores or compares numbers, and all values below are the raw numbers
  in those units.
* The external beam-geometry library (`radio_beam`: `common_beam`,
  `deconvolve`, `convolve`) is out of scope for the repository and is treated
  as a black box with a documented contract (NaN propagation, exact-match
  equality); it is modelled by a record of functions `BeamOps` that the
  embedded script is parameterised over.
* Fallible paths (Python exceptions) are modelled with `Except`.
-/

/-- An IEEE double as used by the script: `nan` or a (rational) value. -/
inductive FVal where
  | nan : FVal
  | val : ℚ → FVal
deriving DecidableEq

namespace FVal

/-- `np.isnan`. -/
def isNaN : FVal → Bool
  | nan => true
  | val _ => false

/-- NaN-propagating multiplication (`x * np.nan` and friends). -/
def mul : FVal → FVal → FVal
  | val a, val b => val (a * b)
  | _, _ => nan

/-- NaN-propagating division (used for `minorcons / grid`; the script only
divides by a positive grid spacing). -/
def div : FVal → FVal → FVal
  | val a, val b => val (a / b)
  | _, _ => nan

/-- IEEE `<` as a boolean: any comparison against NaN is `false` (numpy). -/
def ltB : FVal → FVal → Bool
  | val a, val b => decide (a < b)
  | _, _ => false

/-- IEEE `>` as a boolean: any comparison against NaN is `false` (numpy). -/
def gtB : FVal → FVal → Bool
  | val a, val b => decide (b < a)
  | _, _ => false

end FVal

/-- A `radio_beam.Beam` as the script sees it: major and minor axes (arcsec)
and position angle (deg), each possibly NaN. -/
structure RBeam where
  major : FVal
  minor : FVal
  pa : FVal
deriving DecidableEq

/-- `Beam(major=np.nan*u.deg, minor=np.nan*u.deg, pa=np.nan*u.deg)`: the NaN
beam used for blanked channels. -/
def nanBeam : RBeam := ⟨FVal.nan, FVal.nan, FVal.nan⟩

/-- `Beam(major=0*u.deg, minor=0*u.deg, pa=0*u.deg)`: the null-beam sentinel
the upstream pipeline writes for channels with no data. -/
def nullBeam : RBeam := ⟨FVal.val 0, FVal.val 0, FVal.val 0⟩

/-- `np.isnan` on a beam entry of a `Beams` array: the `Beams` container's own
value array is the major-axis array, so `np.isnan(beams)` inspects the major
axis. Masked entries have all three fields NaN, so this coincides with
all-fields-NaN everywhere the script uses it. -/
def RBeam.isNaNB (b : RBeam) : Bool := b.major.isNaN

/-- `major *= np.nan; minor *= np.nan; pa *= np.nan` applied to one beam:
the masked-out copy of a beam (all fields become NaN). -/
def nanOut (b : RBeam) : RBeam := ⟨b.major.mul FVal.nan, b.minor.mul FVal.nan, b.pa.mul FVal.nan⟩

/-- Exact-equality test against the null-beam sentinel (`beams == nullbeam`,
elementwise over major/minor/pa; IEEE: a NaN field never compares equal). -/
def isNullBeam (b : RBeam) : Bool :=
  b.major == FVal.val 0 && b.minor == FVal.val 0 && b.pa == FVal.val 0

/-- The integer ceiling of a rational, computably (`np.ceil` on an exact
rational input). -/
def ceilQ (q : ℚ) : ℤ := -Rat.floor (-q)

/-- Modelled from the spec: `my_ceil` (from `racs_tools.beamcon_2D`, a source
file of this repository that is not under `src/`) rounds a value up to a fixed
decimal precision — "round major and minor axes up to a fixed decimal
precision (ceiling, not nearest)". -/
def my_ceil (a : ℚ) (precision : ℕ) : ℚ :=
  (ceilQ (a * 10 ^ precision) : ℚ) / 10 ^ precision

/-- Modelled from the spec: `round_up` (from `racs_tools.beamcon_2D`, not
under `src/`) rounds the position angle up via a decimal-ceiling rule. -/
def round_up (n : ℚ) (decimals : ℕ) : ℚ :=
  (ceilQ (n * 10 ^ decimals) : ℚ) / 10 ^ decimals

/-- `my_ceil` lifted to `FVal` (`np.ceil(np.nan)` is NaN). -/
def my_ceilF (a : FVal) (precision : ℕ) : FVal :=
  match a with
  | FVal.nan => FVal.nan
  | FVal.val q => FVal.val (my_ceil q precision)

/-- `round_up` lifted to `FVal`. -/
def round_upF (n : FVal) (decimals : ℕ) : FVal :=
  match n with
  | FVal.nan => FVal.nan
  | FVal.val q => FVal.val (round_up q decimals)

/-- The rounding the script applies to every solved common beam
(`beamcon_3D.py` lines 425-434 and 529-538): major and minor axes ceiling-ed
at precision 1 (arcsec), position angle ceiling-ed at 2 decimals (deg). -/
def roundBeam (b : RBeam) : RBeam :=
  ⟨my_ceilF b.major 1, my_ceilF b.minor 1, round_upF b.pa 2⟩

/-- Per-input-cube state as held in the script's `datadict`: the per-channel
beams read from the beamlog, the boolean mask, and the pixel grid spacings
`dx`, `dy` in arcsec. -/
structure CubeState where
  beams : List RBeam
  mask : List Bool
  dx : ℚ
  dy : ℚ
deriving DecidableEq

/-- `masking` (`beamcon_3D.py` lines 668-683) for one cube: the mask starts
all-`False`, is OR-ed with `majors > cutoff` when a cutoff is given (IEEE: a
NaN major is never `>` the cutoff), and is then OR-ed with the exact null-beam
comparison `beams == nullbeam`. -/
def masking (nchans : ℕ) (cutoff : Option ℚ) (c : CubeState) : CubeState :=
  let mask0 := List.replicate nchans false
  let mask1 :=
    match cutoff with
    | none => mask0
    | some cut =>
        List.zipWith (fun a b => a || b) mask0
          (c.beams.map (fun b => b.major.gtB (FVal.val cut)))
  let mask2 := List.zipWith (fun a b => a || b) mask1 (c.beams.map isNullBeam)
  { c with mask := mask2 }

/-- The cutoff source of the mask alone: `majors > cutoff` (all-`False` when
no cutoff is supplied). -/
def cutoffMask (cutoff : Option ℚ) (beams : List RBeam) : List Bool :=
  match cutoff with
  | none => beams.map (fun _ => false)
  | some cut => beams.map (fun b => b.major.gtB (FVal.val cut))

/-- The null-beam source of the mask alone: `beams == nullbeam`. -/
def nullMask (beams : List RBeam) : List Bool := beams.map isNullBeam

/-- The condition of the mode check in `main` (`beamcon_3D.py` line 804),
verbatim: `mode == 'natural' and mode == 'total'`. The body raises
`"'mode' must be 'natural' or 'total'"` when this condition holds. -/
def modeCheckRaises (mode : String) : Bool :=
  mode == "natural" && mode == "total"

/-- `count = dims // nPE` of the block partition (`beamcon_3D.py` line 1020). -/
def blockCount (nPE dims : ℕ) : ℕ := dims / nPE

/-- `rem = dims % nPE` of the block partition (`beamcon_3D.py` line 1021). -/
def blockRem (nPE dims : ℕ) : ℕ := dims % nPE

/-- `my_start` of the block partition (`beamcon_3D.py` lines 1022-1030): the
first `rem` ranks start at `rank*(count+1)`, the rest at `rank*count+rem`. -/
def myStart (nPE rank dims : ℕ) : ℕ :=
  if rank < blockRem nPE dims then rank * (blockCount nPE dims + 1)
  else rank * blockCount nPE dims + blockRem nPE dims

/-- Number of tasks a rank takes: the slice `inputs[my_start:my_end+1]` with
`my_end = my_start + count` for the first `rem` ranks (`count+1` tasks) and
`my_end = my_start + (count - 1)` for the rest (`count` tasks). -/
def mySize (nPE rank dims : ℕ) : ℕ :=
  if rank < blockRem nPE dims then blockCount nPE dims + 1 else blockCount nPE dims

/-- The contiguous index range a rank works on. -/
def myRange (nPE rank dims : ℕ) : Finset ℕ :=
  Finset.Ico (myStart nPE rank dims) (myStart nPE rank dims + mySize nPE rank dims)

/-- The external beam-geometry library (`radio_beam`), a black box to this
repository: `convolve`/`deconvolve` of two beams and the smallest-enclosing
`common_beam` search, which takes `(tolerance, nsamps, epsilon)` and either
returns a beam or raises `BeamError` (modelled as `Except Unit`). -/
structure BeamOps where
  convolve : RBeam → RBeam → RBeam
  deconvolve : RBeam → RBeam → RBeam
  commonBeam : ℚ → ℕ → ℚ → List RBeam → Except Unit RBeam

/-- `Beam.__lt__` of the external library, used by `target_beam < nyq_beam`:
beams are compared by beam area, proportional to `major * minor` (IEEE: false
when NaN is involved). -/
def beamLt (a b : RBeam) : Bool :=
  FVal.ltB (a.major.mul a.minor) (b.major.mul b.minor)

/-- The `try/except BeamError` around `common_beam` (`beamcon_3D.py` lines
413-424 and 514-525): on `BeamError` retry exactly once with
`tolerance * 0.1` and the same `nsamps` and `epsilon`; a failure of the retry
is not caught. -/
def solveWithRetry (ops : BeamOps) (tol : ℚ) (ns : ℕ) (eps : ℚ)
    (bs : List RBeam) : Except Unit RBeam :=
  match ops.commonBeam tol ns eps bs with
  | Except.ok b => Except.ok b
  | Except.error _ => ops.commonBeam (tol * (1 / 10)) ns eps bs

/-- `beams[~np.isnan(beams)]`: the non-NaN entries of a beam set. -/
def nonNaNBeams (bs : List RBeam) : List RBeam := bs.filter (fun b => !b.isNaNB)

/-- `Beam(major=grid*2, minor=grid*2, pa=0*u.deg)`: the circular Nyquist guard
beam of twice the grid spacing (`beamcon_3D.py` lines 448-452). -/
def guardBeam (grid : ℚ) : RBeam :=
  ⟨FVal.val (2 * grid), FVal.val (2 * grid), FVal.val 0⟩

/-- The minor-axis sample counts of the convolving beams (`beamcon_3D.py`
lines 438-444): for every non-NaN original beam, deconvolve the candidate by
it and divide the minor axis by the grid spacing. -/
def sampCounts (ops : BeamOps) (cb : RBeam) (bs : List RBeam) (grid : ℚ) :
    List FVal :=
  (nonNaNBeams bs).map (fun b => ((ops.deconvolve cb b).minor).div (FVal.val grid))

/-- `any(samps.value < 2)` (`beamcon_3D.py` line 446): the trigger of the
Nyquist guard (a NaN sample count never triggers it, IEEE). -/
def underSampled (samps : List FVal) : Bool :=
  samps.any (fun s => s.ltB (FVal.val 2))

/-- The replacement candidate the guard constructs (`beamcon_3D.py` lines
448-462): the candidate convolved with the circular guard beam, then rounded
with the same ceiling rule as the solved beam. -/
def nyqBeam (ops : BeamOps) (cb : RBeam) (grid : ℚ) : RBeam :=
  roundBeam (ops.convolve cb (guardBeam grid))

/-- The Nyquist guard in the no-target path (`beamcon_3D.py` lines 436-469):
keep the candidate when every sample count is at least 2, otherwise replace it
by the rounded convolution with the circular guard beam. -/
def nyquistGuard (ops : BeamOps) (cb : RBeam) (bs : List RBeam) (grid : ℚ) :
    RBeam :=
  if underSampled (sampCounts ops cb bs grid) then nyqBeam ops cb grid else cb

/-- The failure modes of the planning phase: a `BeamError` escaping the
retried `common_beam` call, the `"CAN'T UNDERSAMPLE BEAM - EXITING"` exception
of the total-mode target path, and the `NameError` a mode that is neither
`'natural'` nor `'total'` runs into when `commonbeamer` reaches line 585 with
`commonbeams` never assigned. -/
inductive PErr where
  | beamError : PErr
  | undersample : PErr
  | nameError : PErr
deriving DecidableEq

/-- The per-channel beam-set assembly of natural mode (`beamcon_3D.py` lines
366-394): for channel `n`, take each cube's beam at `n`; for a masked channel
the extracted per-field scalar copies are multiplied by NaN (the stored beams
are untouched, scalar indexing copies). -/
def gatherChannel (cubes : List CubeState) (n : ℕ) : List RBeam :=
  cubes.map (fun c =>
    if c.mask.getD n false then nanOut (c.beams.getD n nanBeam)
    else c.beams.getD n nanBeam)

/-- The per-channel common-beam computation of natural mode (`beamcon_3D.py`
lines 406-469): an all-NaN channel yields the NaN beam with no solver call;
otherwise the retried solver runs on the non-NaN subset, the result is
ceiling-rounded, and — only when `conv_mode != 'robust'` — the Nyquist guard
may replace it. -/
def channelCommonBeam (ops : BeamOps) (tol : ℚ) (ns : ℕ) (eps : ℚ)
    (convMode : String) (grid : ℚ) (beams : List RBeam) : Except PErr RBeam :=
  if beams.all (fun b => b.isNaNB) then Except.ok nanBeam
  else
    match solveWithRetry ops tol ns eps (nonNaNBeams beams) with
    | Except.error _ => Except.error PErr.beamError
    | Except.ok cb0 =>
        let cb := roundBeam cb0
        if convMode ≠ "robust" then Except.ok (nyquistGuard ops cb beams grid)
        else Except.ok cb

/-- The total-mode beam flattening for one cube (`beamcon_3D.py` lines
490-499): `major = datadict[key]['beams'].major` aliases the stored
major-axis array (the `Beams` container stores the component arrays as plain
attributes), so `major[mask] *= np.nan` writes NaN back into the stored beams
at every masked index. The function returns the cube with its stored beams so
mutated. -/
def totalMaskBeams (c : CubeState) : CubeState :=
  { c with
    beams := List.zipWith (fun b m => if m then nanOut b else b) c.beams c.mask }

/-- The flattened all-(image x channel) beam list of total mode
(`beamcon_3D.py` lines 497-508): the per-cube (NaN-masked) beam arrays
concatenated in cube order. -/
def totalGather (cubes : List CubeState) : List RBeam :=
  (cubes.map (fun c => (totalMaskBeams c).beams)).flatten

/-- The single common beam of total mode (`beamcon_3D.py` lines 514-577):
run the retried solver on the non-NaN subset of the flattened beams; an
explicit target beam then replaces the solved beam entirely, otherwise the
solved beam is ceiling-rounded; when `conv_mode != 'robust'` the Nyquist
check runs on the resulting candidate, and if it triggers, a target beam that
compares smaller than the guard beam built from it aborts the run, while the
no-target path adopts the guard beam. -/
def totalCommonBeam (ops : BeamOps) (tol : ℚ) (ns : ℕ) (eps : ℚ)
    (convMode : String) (targetBeam : Option RBeam) (grid : ℚ)
    (allBeams : List RBeam) : Except PErr RBeam :=
  match solveWithRetry ops tol ns eps (nonNaNBeams allBeams) with
  | Except.error _ => Except.error PErr.beamError
  | Except.ok cb0 =>
      let cb1 :=
        match targetBeam with
        | some t => t
        | none => roundBeam cb0
      if convMode ≠ "robust" then
        if underSampled (sampCounts ops cb1 allBeams grid) then
          let nyq := nyqBeam ops cb1 grid
          match targetBeam with
          | some t =>
              if beamLt t nyq then Except.error PErr.undersample else Except.ok t
          | none => Except.ok nyq
        else Except.ok cb1
      else Except.ok cb1

/-- The convolving beam for one channel (`beamcon_3D.py` lines 601-609): the
NaN beam for a masked channel, else the common beam deconvolved by the
original beam. -/
def convBeamFor (ops : BeamOps) (commonbeam oldbeam : RBeam) (mask : Bool) :
    RBeam :=
  if mask then nanBeam else ops.deconvolve commonbeam oldbeam

/-- Modelled from the spec: `au2.gauss_factor` (a source file of this
repository that is not under `src/`) computes the closed-form Jy/beam
flux-rescaling factor from the convolving beam, the original beam and the
grid spacings, with the contract "NaN-in implies NaN-out so a blanked
channel's factor is NaN"; the finite-input arithmetic is delegated to the
parameter `f`. -/
def gauss_factor (f : RBeam → RBeam → ℚ → ℚ → ℚ) (conbm oldbeam : RBeam)
    (dx dy : ℚ) : FVal :=
  if conbm.isNaNB || conbm.minor.isNaN || conbm.pa.isNaN ||
      oldbeam.isNaNB || oldbeam.minor.isNaN || oldbeam.pa.isNaN then FVal.nan
  else FVal.val (f conbm oldbeam dx dy)

/-- The per-cube planning result appended to `datadict` by `commonbeamer`
(lines 590-634): the (possibly mutated) stored beams and mask, plus the
common beams, convolving beams and flux factors for every channel. -/
structure CubeResult where
  beams : List RBeam
  mask : List Bool
  dx : ℚ
  dy : ℚ
  commonbeams : List RBeam
  convbeams : List RBeam
  facs : List FVal
deriving DecidableEq

/-- The convolution data computed for one cube (`beamcon_3D.py` lines
590-627): per-channel convolving beams from `convBeamFor`, and flux factors
from `getfacs`, which zips the convolving beams with the cube's stored beams. -/
def cubeConvData (ops : BeamOps) (f : RBeam → RBeam → ℚ → ℚ → ℚ)
    (commonbeams : List RBeam) (c : CubeState) : CubeResult :=
  let convbeams :=
    List.zipWith (fun cm (p : RBeam × Bool) => convBeamFor ops cm p.1 p.2)
      commonbeams (c.beams.zip c.mask)
  let facs :=
    List.zipWith (fun cv ob => gauss_factor f cv ob c.dx c.dy) convbeams c.beams
  ⟨c.beams, c.mask, c.dx, c.dy, commonbeams, convbeams, facs⟩

/-- The grid spacing the Nyquist check uses: `datadict[key]["dy"]` with `key`
the leftover loop variable, i.e. the dy of the last cube (`beamcon_3D.py`
lines 436 and 541). -/
def lastDy (cubes : List CubeState) : ℚ :=
  (cubes.getLastD ⟨[], [], 0, 0⟩).dy

/-- `commonbeamer` (`beamcon_3D.py` lines 348-665), the planning phase: find
the common beam(s) for the requested mode, then derive every cube's
convolving beams and flux factors. A mode that is neither `'natural'` nor
`'total'` leaves `commonbeams` unassigned and crashes with a `NameError` at
line 585. -/
def mapExcept (g : ℕ → Except PErr RBeam) : List ℕ → Except PErr (List RBeam)
  | [] => Except.ok []
  | n :: rest =>
      match g n, mapExcept g rest with
      | Except.error e, _ => Except.error e
      | Except.ok _, Except.error e => Except.error e
      | Except.ok cb, Except.ok cbs => Except.ok (cb :: cbs)

def commonbeamer (ops : BeamOps) (f : RBeam → RBeam → ℚ → ℚ → ℚ) (tol : ℚ)
    (ns : ℕ) (eps : ℚ) (convMode mode : String) (targetBeam : Option RBeam)
    (cubes : List CubeState) (nchans : ℕ) : Except PErr (List CubeResult) :=
  if mode = "natural" then
    match mapExcept
        (fun n => channelCommonBeam ops tol ns eps convMode (lastDy cubes)
          (gatherChannel cubes n)) (List.range nchans) with
    | Except.error e => Except.error e
    | Except.ok commonbeams =>
        Except.ok (cubes.map (cubeConvData ops f commonbeams))
  else if mode = "total" then
    let cubes' := cubes.map totalMaskBeams
    match totalCommonBeam ops tol ns eps convMode targetBeam (lastDy cubes)
        (totalGather cubes) with
    | Except.error e => Except.error e
    | Except.ok cb =>
        Except.ok (cubes'.map (cubeConvData ops f (List.replicate nchans cb)))
  else Except.error PErr.nameError

/-- One row of the per-image common-beam log table (`beamcon_3D.py` lines
636-661): channel index, target beam (BMAJ/BMIN arcsec, BPA deg), convolving
beam (same columns) and the flux factor. -/
structure LogRow where
  channel : ℕ
  tmaj : FVal
  tmin : FVal
  tpa : FVal
  cmaj : FVal
  cmin : FVal
  cpa : FVal
  fac : FVal
deriving DecidableEq

/-- Writing the common-beam log (`beamcon_3D.py` lines 636-661): one row per
channel with the target-beam columns, the convolving-beam columns (the
position angle converted to deg at line 612) and the factor column. -/
def writeLog (commonbeams convbeams : List RBeam) (facs : List FVal) :
    List LogRow :=
  (List.range commonbeams.length).zipWith
    (fun i (p : (RBeam × RBeam) × FVal) =>
      ⟨i, p.1.1.major, p.1.1.minor, p.1.1.pa,
        p.1.2.major, p.1.2.minor, p.1.2.pa, p.2⟩)
    ((commonbeams.zip convbeams).zip facs)

/-- `readlogs` (`beamcon_3D.py` lines 746-781), the `--uselogs` replay path,
restricted to one parsed table: rebuild the common beams from the
`Target BMAJ/BMIN/BPA` columns (applying arcsec/arcsec/deg), the convolving
beams from the `Convolving` columns, and the factors from the
`Convolving factor` column. It calls neither the solver nor the Nyquist
guard (it takes no `BeamOps` at all). -/
def readlogs (rows : List LogRow) : List RBeam × List RBeam × List FVal :=
  (rows.map (fun r => ⟨r.tmaj, r.tmin, r.tpa⟩),
   rows.map (fun r => ⟨r.cmaj, r.cmin, r.cpa⟩),
   rows.map (fun r => r.fac))

/-- A symmetric 2x2 rational matrix `[[a, b], [b, c]]`. Used to state the
documented contract of the external beam geometry: an elliptical-Gaussian
beam corresponds to a covariance matrix whose smaller eigenvalue is the
squared minor axis, convolution adds covariances and deconvolution subtracts
them. -/
structure Sym2Q where
  a : ℚ
  b : ℚ
  c : ℚ
deriving DecidableEq

/-- Entrywise sum of symmetric matrices (covariance of a convolution). -/
def Sym2Q.add (x y : Sym2Q) : Sym2Q := ⟨x.a + y.a, x.b + y.b, x.c + y.c⟩

/-- Entrywise difference of symmetric matrices (covariance of a
deconvolution). -/
def Sym2Q.sub (x y : Sym2Q) : Sym2Q := ⟨x.a - y.a, x.b - y.b, x.c - y.c⟩

/-- The scalar matrix `t * I`. -/
def Sym2Q.diag (t : ℚ) : Sym2Q := ⟨t, 0, t⟩

/-- Positive semidefiniteness of a symmetric 2x2 matrix, stated over ℚ:
nonnegative diagonal and nonnegative determinant. -/
def Sym2Q.PSD (x : Sym2Q) : Prop := 0 ≤ x.a ∧ 0 ≤ x.c ∧ x.b ^ 2 ≤ x.a * x.c

instance (x : Sym2Q) : Decidable x.PSD := by
  unfold Sym2Q.PSD
  infer_instance

/-- NaN-propagating addition. -/
def FVal.add : FVal → FVal → FVal
  | FVal.val a, FVal.val b => FVal.val (a + b)
  | _, _ => FVal.nan

/-- NaN-propagating subtraction. -/
def FVal.sub : FVal → FVal → FVal
  | FVal.val a, FVal.val b => FVal.val (a - b)
  | _, _ => FVal.nan

/-- Convenience constructor for a finite beam. -/
def mkBeam (ma mi p : ℚ) : RBeam := ⟨FVal.val ma, FVal.val mi, FVal.val p⟩

/-- A simple instantiation of the external geometry used to evaluate the
embedded script on concrete inputs: componentwise additive convolution and
subtractive deconvolution (NaN-propagating), and a smallest-enclosing-beam
search that returns the first beam of its input. -/
def addOps : BeamOps where
  convolve := fun x y => ⟨x.major.add y.major, x.minor.add y.minor, FVal.val 0⟩
  deconvolve := fun x y => ⟨x.major.sub y.major, x.minor.sub y.minor, FVal.val 0⟩
  commonBeam := fun _ _ _ bs => Except.ok (bs.headD nanBeam)

/-- An instantiation of the external geometry whose smallest-enclosing-beam
search fails on an empty beam collection (the smallest enclosing beam of no
beams does not exist) and succeeds on any non-empty one. -/
def emptyFailOps : BeamOps where
  convolve := fun x y => ⟨x.major.add y.major, x.minor.add y.minor, FVal.val 0⟩
  deconvolve := fun x y => if x.isNaNB || y.isNaNB then nanBeam else ⟨x.major.sub y.major, x.minor.sub y.minor, FVal.val 0⟩
  commonBeam := fun _ _ _ bs => if bs.isEmpty then Except.error () else Except.ok (bs.headD nanBeam)

/-- An instantiation whose smallest-enclosing-beam search always raises
`BeamError`. -/
def alwaysFailOps : BeamOps where
  convolve := fun x _ => x
  deconvolve := fun x _ => x
  commonBeam := fun _ _ _ _ => Except.error ()

/-- An instantiation whose deconvolution propagates a NaN input beam. -/
def nanPropOps : BeamOps where
  convolve := fun x y => ⟨x.major.add y.major, x.minor.add y.minor, FVal.val 0⟩
  deconvolve := fun x y => if x.isNaNB then nanBeam else ⟨x.major.sub y.major, x.minor.sub y.minor, FVal.val 0⟩
  commonBeam := fun _ _ _ bs => Except.ok (bs.headD nanBeam)

/-- A trivial finite-input flux-factor arithmetic for concrete runs. -/
def facZero : RBeam → RBeam → ℚ → ℚ → ℚ := fun _ _ _ _ => 0

/-- Concrete beam (3, 3, 0): a circular candidate common beam. -/
def beamA : RBeam := mkBeam 3 3 0

/-- Concrete beam (5, 5, 0): `beamA` convolved with the circular guard beam
of a grid of 2 arcsec (3-4-5 in quadrature on each axis). -/
def beamB : RBeam := mkBeam 5 5 0

/-- A quadrature instantiation of the external geometry at the concrete
points a Nyquist-guard evaluation touches: convolving (`beamA` with the
circular guard beam of grid 2, 3-4-5 in quadrature) yields `beamB`, and
deconvolving by the null beam is the identity. -/
def quadOps : BeamOps where
  convolve := fun _ _ => beamB
  deconvolve := fun x _ => x
  commonBeam := fun _ _ _ _ => Except.ok beamA

/-- The covariance of a finite beam in the axis-aligned case: squared axes on
the diagonal (a NaN field contributes 0; never hit in the statements below). -/
def covDiag (x : RBeam) : Sym2Q :=
  ⟨(match x.major with | FVal.val q => q * q | FVal.nan => 0), 0,
   (match x.minor with | FVal.val q => q * q | FVal.nan => 0)⟩

/-- The four-channel cube of the spec's masking example: per-channel majors
10, 12, NaN, 15 arcsec, minor 2 arcsec, position angle 0. -/
def exCube : CubeState :=
  ⟨[mkBeam 10 2 0, mkBeam 12 2 0, ⟨FVal.nan, FVal.val 2, FVal.val 0⟩, mkBeam 15 2 0],
   [], 1, 1⟩

/-- A one-channel, one-cube datadict with a single finite beam (10, 2, 0),
that channel masked. -/
def maskedCube : CubeState := ⟨[mkBeam 10 2 0], [true], 1, 1⟩

/-- A one-channel, one-cube datadict with a single finite beam (10, 2, 0),
nothing masked. -/
def plainCube : CubeState := ⟨[mkBeam 10 2 0], [false], 1, 1⟩

/-- A one-channel, one-cube datadict whose only beam is the NaN beam (an
all-NaN beam set). -/
def nanCube : CubeState := ⟨[nanBeam], [false], 1, 1⟩

theorem ratFloor_eq_floor (r : ℚ) : Rat.floor r = ⌊r⌋ :=
  le_antisymm (Int.le_floor.mpr (Rat.le_floor.mp le_rfl))
    (Rat.le_floor.mpr (Int.le_floor.mp le_rfl))

theorem ceilQ_eq_ceil (r : ℚ) : ceilQ r = ⌈r⌉ := by
  rw [ceilQ, ratFloor_eq_floor, ← Int.ceil_neg, neg_neg]

theorem my_ceil_le (x : ℚ) (p : ℕ) : x ≤ my_ceil x p := by
  have h10 : (0 : ℚ) < 10 ^ p := by positivity
  rw [my_ceil, ceilQ_eq_ceil, le_div_iff₀ h10]
  exact Int.le_ceil _

theorem my_ceil_idem (x : ℚ) (p : ℕ) : my_ceil (my_ceil x p) p = my_ceil x p := by
  have h10 : (10 : ℚ) ^ p ≠ 0 := by positivity
  rw [my_ceil, my_ceil, ceilQ_eq_ceil, ceilQ_eq_ceil,
    div_mul_cancel₀ _ h10, Int.ceil_intCast]

theorem round_up_eq_my_ceil (x : ℚ) (p : ℕ) : round_up x p = my_ceil x p := rfl

/-- C5: the rounding applied to every solved common beam — `my_ceil` at
precision 1 on major and minor axes (arcsec) and `round_up` at 2 decimals on
the position angle (deg) — is a true ceiling (the rounded beam dominates the
solved beam on every axis) and is idempotent. -/
theorem claim5_round_ceiling_idempotent (x : ℚ) (p : ℕ) (ma mi ang : ℚ) (b : RBeam) :
    (x ≤ my_ceil x p ∧ my_ceil (my_ceil x p) p = my_ceil x p) ∧
    (x ≤ round_up x p ∧ round_up (round_up x p) p = round_up x p) ∧
    (roundBeam (mkBeam ma mi ang)
        = mkBeam (my_ceil ma 1) (my_ceil mi 1) (round_up ang 2) ∧
      ma ≤ my_ceil ma 1 ∧ mi ≤ my_ceil mi 1 ∧ ang ≤ round_up ang 2) ∧
    roundBeam (roundBeam b) = roundBeam b := by
  refine ⟨⟨my_ceil_le x p, my_ceil_idem x p⟩,
    ⟨?_, ?_⟩, ⟨rfl, my_ceil_le ma 1, my_ceil_le mi 1, ?_⟩, ?_⟩
  · rw [round_up_eq_my_ceil]; exact my_ceil_le x p
  · simp only [round_up_eq_my_ceil]
    exact my_ceil_idem x p
  · rw [round_up_eq_my_ceil]; exact my_ceil_le ang 2
  · obtain ⟨fma, fmi, fpa⟩ := b
    cases fma <;> cases fmi <;> cases fpa <;>
      simp [roundBeam, my_ceilF, round_upF, my_ceil_idem, round_up_eq_my_ceil]

/-- C8 (code bug): the mode check in `main` is
`if mode == 'natural' and mode == 'total'`, a condition no string satisfies,
so an invalid mode (e.g. `'foo'`) is never rejected — contradicting the
check's own error message `"'mode' must be 'natural' or 'total'"`; the
invalid mode flows on into the beam computation. -/
theorem claim8_mode_check_never_fires :
    modeCheckRaises "foo" = false ∧
    (∀ mode : String, modeCheckRaises mode = false) := by
  refine ⟨by decide, fun mode => ?_⟩
  by_cases h : mode = "natural"
  · subst h; decide
  · simp [modeCheckRaises, h]

/-- C4: when the external common-beam search raises `BeamError` at the
configured tolerance, the script retries exactly once with the tolerance
multiplied by 0.1 and the same `nsamps` and `epsilon` (the result of the run
is exactly the result of that second call), and when the retry also fails the
failure propagates and aborts the computation for that beam set. -/
theorem claim4_retry_once_then_fatal (ops : BeamOps) (tol : ℚ) (ns : ℕ)
    (eps : ℚ) (beams : List RBeam) (e : Unit)
    (hfail : ops.commonBeam tol ns eps (nonNaNBeams beams) = Except.error e) :
    solveWithRetry ops tol ns eps (nonNaNBeams beams)
      = ops.commonBeam (tol * (1 / 10)) ns eps (nonNaNBeams beams) ∧
    (∀ e2 : Unit,
      ops.commonBeam (tol * (1 / 10)) ns eps (nonNaNBeams beams) = Except.error e2 →
      beams.all (fun b => b.isNaNB) = false →
      ∀ convMode grid,
        channelCommonBeam ops tol ns eps convMode grid beams
          = Except.error PErr.beamError) := by
  constructor
  · rw [solveWithRetry, hfail]
  · intro e2 h2 hsome convMode grid
    rw [channelCommonBeam, hsome]
    simp only [Bool.false_eq_true, if_false]
    rw [solveWithRetry, hfail, h2]

/-- Witness for C4 at a concrete input: a solver that always fails, a
beam set with one finite beam. -/
theorem claim4_retry_once_then_fatal_witness :
    solveWithRetry alwaysFailOps (1 / 10000) 200 (1 / 2000) (nonNaNBeams [nullBeam])
      = alwaysFailOps.commonBeam ((1 / 10000) * (1 / 10)) 200 (1 / 2000)
          (nonNaNBeams [nullBeam]) ∧
    (∀ e2 : Unit,
      alwaysFailOps.commonBeam ((1 / 10000) * (1 / 10)) 200 (1 / 2000)
          (nonNaNBeams [nullBeam]) = Except.error e2 →
      [nullBeam].all (fun b => b.isNaNB) = false →
      ∀ convMode grid,
        channelCommonBeam alwaysFailOps (1 / 10000) 200 (1 / 2000) convMode grid
            [nullBeam] = Except.error PErr.beamError) :=
  claim4_retry_once_then_fatal alwaysFailOps (1 / 10000) 200 (1 / 2000)
    [nullBeam] () rfl

/-- C1 (amended): in natural mode, a beam set in which every entry is NaN
makes the per-channel common-beam computation return the NaN beam without any
error (the solver is never called), and the downstream convolving beam and
flux factor of such a channel are NaN, blanking the channel's output plane.
(In total mode the script has no all-NaN guard: see the counterexample.)
The hypothesis `hdec` is the external library's documented NaN-propagation
contract (spec 4.1: `NaN op X = NaN`). -/
theorem claim1_allnan_is_nan_not_error (ops : BeamOps) (tol : ℚ) (ns : ℕ)
    (eps : ℚ) (convMode : String) (grid : ℚ) (beams : List RBeam)
    (hall : beams.all (fun b => b.isNaNB) = true)
    (hdec : ∀ y, ops.deconvolve nanBeam y = nanBeam) :
    channelCommonBeam ops tol ns eps convMode grid beams = Except.ok nanBeam ∧
    (∀ old mask, convBeamFor ops nanBeam old mask = nanBeam) ∧
    (∀ f old dx dy, gauss_factor f nanBeam old dx dy = FVal.nan) := by
  refine ⟨?_, ?_, ?_⟩
  · rw [channelCommonBeam, hall]
    rfl
  · intro old mask
    cases mask
    · simpa [convBeamFor] using hdec old
    · rfl
  · intro f old dx dy
    rfl

/-- Witness for C1 at a concrete input: the singleton all-NaN beam set, with
a NaN-propagating deconvolution. -/
theorem claim1_allnan_is_nan_not_error_witness :
    channelCommonBeam nanPropOps (1 / 10000) 200 (1 / 2000) "robust" 1 [nanBeam]
      = Except.ok nanBeam ∧
    (∀ old mask, convBeamFor nanPropOps nanBeam old mask = nanBeam) ∧
    (∀ f old dx dy, gauss_factor f nanBeam old dx dy = FVal.nan) :=
  claim1_allnan_is_nan_not_error nanPropOps (1 / 10000) 200 (1 / 2000) "robust" 1
    [nanBeam] (by decide) (fun y => rfl)

/-- Counterexample to C1 as stated: in total mode there is no all-NaN guard —
the empty non-NaN subset of an all-NaN beam set is handed to the external
smallest-enclosing-beam search, so with a search that (like the real one)
cannot produce a beam from an empty collection the run raises instead of
returning the NaN beam. -/
theorem claim1_counterexample :
    nonNaNBeams (totalGather [nanCube]) = [] ∧
    commonbeamer emptyFailOps facZero (1 / 10000) 200 (1 / 2000) "robust" "total"
        none [nanCube] 1 = Except.error PErr.beamError := by
  constructor
  · rfl
  · rfl

/-- C2 (amended): in total mode with a fully specified target beam, when the
Nyquist check is active (`conv_mode != 'robust'`), the solver has produced a
candidate, some non-NaN original beam's convolving-beam minor-axis sample
count against the target is below 2, and the target compares smaller (by beam
area) than the guard beam built from the target itself — the script builds
the guard beam from the target, not from the solved candidate, which it has
already discarded — then the run fails with the under-sampling error; and on
every path, total mode with a target that returns at all returns exactly the
target (it is never silently replaced by an enlarged beam). -/
theorem claim2_target_undersampling_fatal (ops : BeamOps) (tol : ℚ) (ns : ℕ)
    (eps : ℚ) (convMode : String) (grid : ℚ) (allBeams : List RBeam)
    (t cb0 : RBeam)
    (hcm : convMode ≠ "robust")
    (hsolve : solveWithRetry ops tol ns eps (nonNaNBeams allBeams) = Except.ok cb0)
    (hund : underSampled (sampCounts ops t allBeams grid) = true)
    (hlt : beamLt t (nyqBeam ops t grid) = true) :
    totalCommonBeam ops tol ns eps convMode (some t) grid allBeams
      = Except.error PErr.undersample ∧
    (∀ cm res, totalCommonBeam ops tol ns eps cm (some t) grid allBeams
        = Except.ok res → res = t) := by
  constructor
  · rw [totalCommonBeam, hsolve]
    dsimp only
    rw [if_pos hcm, if_pos hund, if_pos hlt]
  · intro cm res h
    rw [totalCommonBeam, hsolve] at h
    dsimp only at h
    by_cases hc : cm ≠ "robust"
    · rw [if_pos hc] at h
      by_cases hu : underSampled (sampCounts ops t allBeams grid) = true
      · rw [if_pos hu] at h
        by_cases hl : beamLt t (nyqBeam ops t grid) = true
        · rw [if_pos hl] at h
          exact absurd h (by simp)
        · rw [if_neg hl] at h
          exact (Except.ok.inj h).symm
      · rw [if_neg hu] at h
        exact (Except.ok.inj h).symm
    · rw [if_neg hc] at h
      exact (Except.ok.inj h).symm

theorem my_ceil_eval (a : ℚ) (p : ℕ) (n : ℤ) (h1 : (n : ℚ) - 1 < a * 10 ^ p)
    (h2 : a * 10 ^ p ≤ (n : ℚ)) : my_ceil a p = (n : ℚ) / 10 ^ p := by
  rw [my_ceil, ceilQ_eq_ceil, Int.ceil_eq_iff.mpr ⟨h1, h2⟩]

theorem my_ceil_five : my_ceil (5 : ℚ) 1 = 5 := by
  rw [my_ceil_eval 5 1 50 (by norm_num) (by norm_num)]
  norm_num

theorem my_ceil_four : my_ceil (4 : ℚ) 1 = 4 := by
  rw [my_ceil_eval 4 1 40 (by norm_num) (by norm_num)]
  norm_num

theorem round_up_zero : round_up (0 : ℚ) 2 = 0 := by
  rw [round_up_eq_my_ceil, my_ceil_eval 0 2 0 (by norm_num) (by norm_num)]
  norm_num

theorem undersampled_ex : underSampled
    (sampCounts addOps (mkBeam 3 2 0) [mkBeam 1 1 0] 1) = true := by
  norm_num [underSampled, sampCounts, nonNaNBeams, addOps, mkBeam, RBeam.isNaNB,
    FVal.isNaN, FVal.sub, FVal.div, FVal.ltB]

theorem target_lt_guard_ex : beamLt (mkBeam 3 2 0)
    (nyqBeam addOps (mkBeam 3 2 0) 1) = true := by
  norm_num [beamLt, nyqBeam, addOps, guardBeam, roundBeam, my_ceilF, round_upF,
    mkBeam, FVal.add, FVal.mul, FVal.ltB, my_ceil_five, my_ceil_four,
    round_up_zero]

/-- Witness for C2 at a concrete input: `conv_mode = 'scipy'`, a target beam
(3, 2, 0) over a single original beam (1, 1, 0) on a 1-arcsec grid, which is
under-sampled and smaller than its guard beam, so the run fails. -/
theorem claim2_target_undersampling_fatal_witness :
    totalCommonBeam addOps (1 / 10000) 200 (1 / 2000) "scipy"
        (some (mkBeam 3 2 0)) 1 [mkBeam 1 1 0] = Except.error PErr.undersample ∧
    (∀ cm res, totalCommonBeam addOps (1 / 10000) 200 (1 / 2000) cm
        (some (mkBeam 3 2 0)) 1 [mkBeam 1 1 0] = Except.ok res →
      res = mkBeam 3 2 0) :=
  claim2_target_undersampling_fatal addOps (1 / 10000) 200 (1 / 2000) "scipy" 1
    [mkBeam 1 1 0] (mkBeam 3 2 0) (mkBeam 1 1 0) (by decide) rfl undersampled_ex
    target_lt_guard_ex

/-- Counterexample to C2 as stated: with the default `conv_mode = 'robust'`
the Nyquist check never runs, so a target beam that is smaller than its
Nyquist guard beam (and actually under-sampled) is accepted without any
error — the run does not fail. -/
theorem claim2_counterexample :
    beamLt (mkBeam 3 2 0) (nyqBeam addOps (mkBeam 3 2 0) 1) = true ∧
    underSampled (sampCounts addOps (mkBeam 3 2 0) [mkBeam 1 1 0] 1) = true ∧
    totalCommonBeam addOps (1 / 10000) 200 (1 / 2000) "robust"
        (some (mkBeam 3 2 0)) 1 [mkBeam 1 1 0] = Except.ok (mkBeam 3 2 0) := by
  refine ⟨target_lt_guard_ex, undersampled_ex, rfl⟩

theorem zipWith_or_replicate_false (xs : List Bool) :
    ∀ n, xs.length ≤ n →
      List.zipWith (fun a b => a || b) (List.replicate n false) xs = xs := by
  induction xs with
  | nil => intro n _; simp
  | cons x xs ih =>
      intro n hn
      cases n with
      | zero => simp at hn
      | succ m =>
          simp only [List.replicate_succ, List.zipWith_cons_cons, Bool.false_or]
          exact congrArg (List.cons x) (ih m (by simpa using hn))

theorem fval_beq_false (x y : ℚ) (h : x ≠ y) :
    (FVal.val x == FVal.val y) = false :=
  beq_eq_false_iff_ne.mpr (by simpa using h)

theorem fval_nan_beq_val_false (y : ℚ) : (FVal.nan == FVal.val y) = false :=
  beq_eq_false_iff_ne.mpr (by simp)

theorem exCube_mask_eval :
    (masking 4 (some 14) exCube).mask = [false, false, false, true] := by
  norm_num [masking, exCube, mkBeam, isNullBeam, FVal.gtB,
    decide_eq_true_eq, decide_eq_false_iff_not, fval_beq_false,
    fval_nan_beq_val_false]
  rfl

/-- C7 (amended): the mask `masking` computes is the union (logical OR) of the
cutoff source (`majors > cutoff`, false at NaN majors) and the null-beam
source (exact equality with the 0/0/0 sentinel); re-running `masking` yields
the same state (it rebuilds the mask from the unchanged beams); the two
sources commute; and on the spec's example (majors 10, 12, NaN, 15 arcsec,
cutoff 14 arcsec) the mask is `[F, F, F, T]` — the NaN channel is *not*
masked (IEEE: NaN neither exceeds the cutoff nor equals the sentinel); it is
blanked downstream by NaN propagation instead. -/
theorem claim7_mask_is_union_idem_comm (nchans : ℕ) (cutoff : Option ℚ)
    (c : CubeState) (hlen : c.beams.length = nchans) :
    (masking nchans cutoff c).mask
        = List.zipWith (fun a b => a || b) (cutoffMask cutoff c.beams)
            (nullMask c.beams) ∧
    masking nchans cutoff (masking nchans cutoff c) = masking nchans cutoff c ∧
    List.zipWith (fun a b => a || b) (cutoffMask cutoff c.beams) (nullMask c.beams)
        = List.zipWith (fun a b => a || b) (nullMask c.beams)
            (cutoffMask cutoff c.beams) ∧
    (masking 4 (some 14) exCube).mask = [false, false, false, true] := by
  refine ⟨?_, ?_, ?_, ?_⟩
  · cases cutoff with
    | none =>
        show List.zipWith _ (List.replicate nchans false) _ = _
        rw [zipWith_or_replicate_false (c.beams.map isNullBeam)
          nchans (by simpa using hlen.le)]
        rw [cutoffMask, nullMask]
        induction c.beams with
        | nil => rfl
        | cons b bs ih => simpa using ih
    | some cut =>
        show List.zipWith _ (List.zipWith _ (List.replicate nchans false) _) _ = _
        rw [zipWith_or_replicate_false _ nchans (by simpa using hlen.le)]
        rfl
  · cases cutoff <;> rfl
  · exact List.zipWith_comm_of_comm _ Bool.or_comm _ _
  · exact exCube_mask_eval

/-- Witness for C7 at a concrete input: the spec's four-channel example cube
with a 14-arcsec cutoff. -/
theorem claim7_mask_is_union_idem_comm_witness :
    (masking 4 (some 14) exCube).mask
        = List.zipWith (fun a b => a || b) (cutoffMask (some 14) exCube.beams)
            (nullMask exCube.beams) ∧
    masking 4 (some 14) (masking 4 (some 14) exCube) = masking 4 (some 14) exCube ∧
    List.zipWith (fun a b => a || b) (cutoffMask (some 14) exCube.beams)
        (nullMask exCube.beams)
        = List.zipWith (fun a b => a || b) (nullMask exCube.beams)
            (cutoffMask (some 14) exCube.beams) ∧
    (masking 4 (some 14) exCube).mask = [false, false, false, true] :=
  claim7_mask_is_union_idem_comm 4 (some 14) exCube rfl

/-- Counterexample to C7 as stated: on per-channel majors `[10, 12, NaN, 15]`
arcsec with cutoff 14 arcsec the computed mask is `[F, F, F, T]`, not the
claimed `[F, F, T, T]` — the NaN channel is not masked, because `NaN > 14` is
false and the NaN beam is not equal to the null-beam sentinel. -/
theorem claim7_counterexample :
    (masking 4 (some 14) exCube).mask = [false, false, false, true] ∧
    (masking 4 (some 14) exCube).mask ≠ [false, false, true, true] := by
  constructor
  · exact exCube_mask_eval
  · intro h
    rw [exCube_mask_eval] at h
    simp at h

theorem myStart_formula (n r d : ℕ) :
    myStart n r d = r * blockCount n d + min r (blockRem n d) := by
  rw [myStart]
  split
  · next h => rw [Nat.min_eq_left h.le, Nat.mul_succ]
  · next h => rw [Nat.min_eq_right (Nat.le_of_not_lt h)]

theorem myStart_succ (n r d : ℕ) :
    myStart n (r + 1) d = myStart n r d + mySize n r d := by
  rw [myStart_formula, myStart_formula, mySize]
  split
  · next h =>
      rw [Nat.min_eq_left h.le, Nat.min_eq_left (Nat.succ_le_of_lt h),
        Nat.succ_mul]
      omega
  · next h =>
      rw [Nat.min_eq_right (Nat.le_of_not_lt h),
        Nat.min_eq_right (by omega : blockRem n d ≤ r + 1), Nat.succ_mul]
      omega

theorem myStart_mono (n d r s : ℕ) (h : r ≤ s) :
    myStart n r d ≤ myStart n s d := by
  induction h with
  | refl => exact le_rfl
  | step _ ih =>
      rename_i m _
      calc myStart n r d ≤ myStart n m d := ih
        _ ≤ myStart n (m + 1) d := by rw [myStart_succ]; exact Nat.le_add_right _ _

theorem myStart_top (n d : ℕ) (hn : 1 ≤ n) : myStart n n d = d := by
  have hle : blockRem n d ≤ n := le_of_lt (Nat.mod_lt d hn)
  rw [myStart_formula, Nat.min_eq_right hle, blockCount, blockRem]
  exact Nat.div_add_mod d n

theorem myRange_disjoint_of_lt (n d r1 r2 : ℕ) (h : r1 < r2) :
    Disjoint (myRange n r1 d) (myRange n r2 d) := by
  have hend : myStart n r1 d + mySize n r1 d ≤ myStart n r2 d := by
    rw [← myStart_succ]
    exact myStart_mono n d _ _ h
  rw [Finset.disjoint_left]
  intro i hi1 hi2
  rw [myRange, Finset.mem_Ico] at hi1 hi2
  omega

theorem biUnion_myRange (n d : ℕ) :
    ∀ k, (Finset.range k).biUnion (fun r => myRange n r d)
      = Finset.Ico 0 (myStart n k d) := by
  intro k
  induction k with
  | zero =>
      have h0 : myStart n 0 d = 0 := by rw [myStart_formula]; simp
      simp [h0]
  | succ k ih =>
      rw [Finset.range_succ, Finset.biUnion_insert, ih, myStart_succ, myRange,
        Finset.union_comm]
      exact Finset.Ico_union_Ico_eq_Ico (Nat.zero_le _) (Nat.le_add_right _ _)

/-- C9: the per-rank block partition — `count = dims // nPE`,
`rem = dims % nPE`, ranks below `rem` take `count+1` tasks starting at
`rank*(count+1)`, the rest take `count` tasks starting at `rank*count+rem` —
assigns contiguous, pairwise-disjoint index ranges whose union is exactly
`{0, ..., dims-1}`; each rank's range is a function of
(worker count, rank, task count) alone by construction. -/
theorem claim9_partition_correct (n d : ℕ) (hn : 1 ≤ n) :
    (∀ r1 r2, r1 < n → r2 < n → r1 ≠ r2 →
      Disjoint (myRange n r1 d) (myRange n r2 d)) ∧
    (Finset.range n).biUnion (fun r => myRange n r d) = Finset.Ico 0 d := by
  constructor
  · intro r1 r2 _ _ hne
    rcases Nat.lt_or_ge r1 r2 with h | h
    · exact myRange_disjoint_of_lt n d r1 r2 h
    · rcases Nat.lt_or_ge r2 r1 with h2 | h2
      · exact (myRange_disjoint_of_lt n d r2 r1 h2).symm
      · omega
  · rw [biUnion_myRange n d n, myStart_top n d hn]

/-- Witness for C9: 10 tasks over 3 workers — partition sizes 4, 3, 3,
ranges `[0,4)`, `[4,7)`, `[7,10)`, covering `0..9` exactly once. -/
theorem claim9_partition_correct_witness :
    ((∀ r1 r2, r1 < 3 → r2 < 3 → r1 ≠ r2 →
      Disjoint (myRange 3 r1 10) (myRange 3 r2 10)) ∧
    (Finset.range 3).biUnion (fun r => myRange 3 r 10) = Finset.Ico 0 10) ∧
    mySize 3 0 10 = 4 ∧ mySize 3 1 10 = 3 ∧ mySize 3 2 10 = 3 ∧
    myStart 3 0 10 = 0 ∧ myStart 3 1 10 = 4 ∧ myStart 3 2 10 = 7 :=
  ⟨claim9_partition_correct 3 10 (by norm_num), by decide, by decide, by decide,
    by decide, by decide, by decide⟩

theorem zipWith_mask_getD (bs : List RBeam) :
    ∀ (ms : List Bool) (i : ℕ), i < bs.length → bs.length ≤ ms.length →
      ms.getD i false = false →
      (List.zipWith (fun b m => if m then nanOut b else b) bs ms).getD i nanBeam
        = bs.getD i nanBeam := by
  induction bs with
  | nil => intro ms i hi _ _; simp at hi
  | cons b bs ih =>
      intro ms i hi hlen hm
      cases ms with
      | nil => simp at hlen
      | cons m ms =>
          cases i with
          | zero =>
              simp only [List.getD_cons_zero] at hm ⊢
              simp [List.zipWith_cons_cons, hm]
          | succ j =>
              simp only [List.getD_cons_succ] at hm ⊢
              simp only [List.zipWith_cons_cons, List.getD_cons_succ]
              exact ih ms j (by simpa using hi) (by simpa using hlen) hm

/-- C10 (amended): the planning phase leaves every cube's stored per-channel
beams untouched in natural mode (the per-channel extraction works on scalar
copies); in total mode, however, `major[mask] *= np.nan` (and likewise minor
and pa) writes NaN back into the stored beam arrays — which the `Beams`
container aliases as plain attributes — so after `commonbeamer` returns, the
stored beams are `totalMaskBeams` of the originals: every masked entry has
been overwritten with NaN in place, while every unmasked channel's original
major, minor and position angle are unchanged. -/
theorem claim10_stored_beams (ops : BeamOps) (f : RBeam → RBeam → ℚ → ℚ → ℚ)
    (tol : ℚ) (ns : ℕ) (eps : ℚ) (convMode : String) (target : Option RBeam)
    (cubes : List CubeState) (nchans : ℕ) (mode : String)
    (rs : List CubeResult)
    (hok : commonbeamer ops f tol ns eps convMode mode target cubes nchans
      = Except.ok rs) :
    (mode = "natural" →
      rs.map (fun r => r.beams) = cubes.map (fun c => c.beams)) ∧
    (mode = "total" →
      rs.map (fun r => r.beams)
          = cubes.map (fun c => (totalMaskBeams c).beams) ∧
      ∀ c ∈ cubes, ∀ i, i < c.beams.length → c.beams.length ≤ c.mask.length →
        c.mask.getD i false = false →
        (totalMaskBeams c).beams.getD i nanBeam = c.beams.getD i nanBeam) := by
  constructor
  · intro h
    subst h
    rw [commonbeamer, if_pos rfl] at hok
    split at hok
    · cases hok
    · cases hok
      rw [List.map_map]
      rfl
  · intro h
    subst h
    rw [commonbeamer, if_neg (by decide), if_pos rfl] at hok
    split at hok
    · cases hok
    · constructor
      · cases hok
        rw [List.map_map, List.map_map]
        rfl
      · intro c _ i hi hlen hm
        exact zipWith_mask_getD c.beams c.mask i hi hlen hm

theorem my_ceil_ten : my_ceil (10 : ℚ) 1 = 10 := by
  rw [my_ceil_eval 10 1 100 (by norm_num) (by norm_num)]
  norm_num

theorem my_ceil_two : my_ceil (2 : ℚ) 1 = 2 := by
  rw [my_ceil_eval 2 1 20 (by norm_num) (by norm_num)]
  norm_num

/-- Witness for C10 at a concrete input: a natural-mode run over one cube
with one unmasked channel; the stored beams of the result equal the input's
stored beams. -/
theorem claim10_stored_beams_witness :
    ("natural" = "natural" →
      ([⟨[mkBeam 10 2 0], [false], 1, 1, [mkBeam 10 2 0], [nullBeam],
          [FVal.val 0]⟩] : List CubeResult).map (fun r => r.beams)
        = [plainCube].map (fun c => c.beams)) ∧
    ("natural" = "total" →
      ([⟨[mkBeam 10 2 0], [false], 1, 1, [mkBeam 10 2 0], [nullBeam],
          [FVal.val 0]⟩] : List CubeResult).map (fun r => r.beams)
          = [plainCube].map (fun c => (totalMaskBeams c).beams) ∧
      ∀ c ∈ [plainCube], ∀ i, i < c.beams.length →
        c.beams.length ≤ c.mask.length → c.mask.getD i false = false →
        (totalMaskBeams c).beams.getD i nanBeam = c.beams.getD i nanBeam) :=
  claim10_stored_beams addOps facZero (1 / 10000) 200 (1 / 2000) "robust" none
    [plainCube] 1 "natural"
    [⟨[mkBeam 10 2 0], [false], 1, 1, [mkBeam 10 2 0], [nullBeam], [FVal.val 0]⟩]
    (by norm_num [commonbeamer, mapExcept, channelCommonBeam, gatherChannel,
      nonNaNBeams, solveWithRetry, addOps, roundBeam, my_ceilF, round_upF,
      nyquistGuard, cubeConvData, convBeamFor, gauss_factor, facZero, lastDy,
      plainCube, mkBeam, nullBeam, RBeam.isNaNB, FVal.isNaN, FVal.sub,
      my_ceil_ten, my_ceil_two, round_up_zero,
      show List.range 1 = [0] from rfl])

/-- Counterexample to C10 as stated: a total-mode run over one cube whose
only channel is masked; after `commonbeamer` returns, the stored beam of
that channel has been overwritten with NaN in place (via the aliased
major/minor/pa arrays), so the stored beams are not left unchanged. -/
theorem claim10_counterexample :
    commonbeamer addOps facZero (1 / 10000) 200 (1 / 2000) "robust" "total"
        none [maskedCube] 1
      = Except.ok [⟨[nanBeam], [true], 1, 1, [nanBeam], [nanBeam],
          [FVal.nan]⟩] ∧
    [maskedCube].map (fun c => c.beams) = [[mkBeam 10 2 0]] ∧
    ([[nanBeam]] : List (List RBeam)) ≠ [[mkBeam 10 2 0]] := by
  refine ⟨rfl, rfl, ?_⟩
  simp [nanBeam, mkBeam]

theorem zipWith_ignore_fst {α β γ : Type} (h : β → γ) :
    ∀ (r : List α) (z : List β), z.length ≤ r.length →
      List.zipWith (fun _ p => h p) r z = z.map h := by
  intro r
  induction r with
  | nil =>
      intro z hz
      have h0 : z = [] := List.length_eq_zero.mp (Nat.le_zero.mp (by simpa using hz))
      subst h0
      rfl
  | cons a r ih =>
      intro z hz
      cases z with
      | nil => rfl
      | cons b z => simpa using ih z (by simpa using hz)

/-- C6: writing the per-image common-beam log (one row per channel with the
target beam, the convolving beam and the flux factor, major/minor in arcsec
and position angles in deg) and parsing it back with `readlogs` reconstructs
exactly the common beams, convolving beams and factors that were written; the
replay path takes no `BeamOps` at all, so it invokes neither the solver nor
the Nyquist guard. -/
theorem claim6_log_roundtrip (cb vb : List RBeam) (fs : List FVal)
    (h1 : vb.length = cb.length) (h2 : fs.length = cb.length) :
    readlogs (writeLog cb vb fs) = (cb, vb, fs) := by
  have hzip : (cb.zip vb).length = cb.length := by
    simp [List.length_zip, h1]
  have hz : ((cb.zip vb).zip fs).length = cb.length := by
    simp [List.length_zip, hzip, h2]
  have hlen : ((cb.zip vb).zip fs).length ≤ (List.range cb.length).length := by
    simp [hz]
  rw [readlogs, writeLog]
  refine Prod.ext ?_ (Prod.ext ?_ ?_)
  · show (List.zipWith _ (List.range cb.length) ((cb.zip vb).zip fs)).map
        (fun (r : LogRow) => (⟨r.tmaj, r.tmin, r.tpa⟩ : RBeam)) = cb
    rw [List.map_zipWith]
    rw [show (fun (_ : ℕ) (p : (RBeam × RBeam) × FVal) =>
        (⟨p.1.1.major, p.1.1.minor, p.1.1.pa⟩ : RBeam))
      = fun (_ : ℕ) (p : (RBeam × RBeam) × FVal) => p.1.1 from rfl]
    rw [zipWith_ignore_fst _ _ _ hlen]
    rw [show (fun (p : (RBeam × RBeam) × FVal) => p.1.1)
      = (Prod.fst ∘ Prod.fst) from rfl]
    rw [← List.map_map, List.map_fst_zip _ _ (by simp [hzip, h2]),
      List.map_fst_zip _ _ (by simp [h1])]
  · show (List.zipWith _ (List.range cb.length) ((cb.zip vb).zip fs)).map
        (fun (r : LogRow) => (⟨r.cmaj, r.cmin, r.cpa⟩ : RBeam)) = vb
    rw [List.map_zipWith]
    rw [show (fun (_ : ℕ) (p : (RBeam × RBeam) × FVal) =>
        (⟨p.1.2.major, p.1.2.minor, p.1.2.pa⟩ : RBeam))
      = fun (_ : ℕ) (p : (RBeam × RBeam) × FVal) => p.1.2 from rfl]
    rw [zipWith_ignore_fst _ _ _ hlen]
    rw [show (fun (p : (RBeam × RBeam) × FVal) => p.1.2)
      = (Prod.snd ∘ Prod.fst) from rfl]
    rw [← List.map_map, List.map_fst_zip _ _ (by simp [hzip, h2]),
      List.map_snd_zip _ _ (by simp [h1])]
  · show (List.zipWith _ (List.range cb.length) ((cb.zip vb).zip fs)).map
        (fun (r : LogRow) => r.fac) = fs
    rw [List.map_zipWith]
    rw [show (fun (_ : ℕ) (p : (RBeam × RBeam) × FVal) => p.2)
      = fun (_ : ℕ) (p : (RBeam × RBeam) × FVal) => Prod.snd p from rfl]
    rw [zipWith_ignore_fst _ _ _ hlen]
    exact List.map_snd_zip _ _ (by simp [hzip, h2])

/-- Witness for C6 at a concrete input: a two-channel log (one live channel,
one blanked channel with NaN beams and factor) survives the write/read round
trip unchanged. -/
theorem claim6_log_roundtrip_witness :
    readlogs (writeLog [mkBeam 10 2 0, nanBeam] [nullBeam, nanBeam]
        [FVal.val 1, FVal.nan])
      = ([mkBeam 10 2 0, nanBeam], [nullBeam, nanBeam], [FVal.val 1, FVal.nan]) :=
  claim6_log_roundtrip [mkBeam 10 2 0, nanBeam] [nullBeam, nanBeam]
    [FVal.val 1, FVal.nan] rfl rfl

theorem sym2q_ext (x y : Sym2Q) (ha : x.a = y.a) (hb : x.b = y.b)
    (hc : x.c = y.c) : x = y := by
  cases x; cases y; cases ha; cases hb; cases hc; rfl

theorem psd_add (x y : Sym2Q) (hx : x.PSD) (hy : y.PSD) : (x.add y).PSD := by
  obtain ⟨ha1, hc1, hd1⟩ := hx
  obtain ⟨ha2, hc2, hd2⟩ := hy
  refine ⟨add_nonneg ha1 ha2, add_nonneg hc1 hc2, ?_⟩
  show (x.b + y.b) ^ 2 ≤ (x.a + y.a) * (x.c + y.c)
  nlinarith [sq_nonneg (x.b - y.b), sq_nonneg (x.b + y.b),
    mul_nonneg ha1 hc2, mul_nonneg ha2 hc1,
    sq_nonneg (x.a * y.c - y.a * x.c), hd1, hd2,
    mul_le_mul hd1 hd2 (sq_nonneg y.b) (mul_nonneg ha1 hc1)]

/-- C3: the Nyquist check computes, for every non-NaN original beam, the
minor-axis sample count of the convolving beam (candidate deconvolved by
original, divided by the grid spacing); when every sample count is at least 2
the candidate is returned unchanged; and the replacement candidate (the
candidate convolved with the circular beam of twice the grid spacing and
position angle 0, then ceiling-rounded) yields sample counts of at least 2
for every non-NaN original beam when re-checked. The hypotheses are the
documented contract of the external beam geometry, stated through an abstract
covariance `cov` (convolution adds covariances; the guard beam covariance
dominates `(2*grid)^2 * I`; the ceiling rounding only grows the covariance;
the candidate is deconvolvable from every original, as the first check
presupposes; and the minor axis of a deconvolution is characterised by
positive semidefiniteness of the covariance difference). -/
theorem claim3_nyquist_guard (ops : BeamOps) (cov : RBeam → Sym2Q) (cb : RBeam)
    (beams : List RBeam) (grid : ℚ) (hgrid : 0 < grid)
    (hconv : cov (ops.convolve cb (guardBeam grid))
      = (cov cb).add (cov (guardBeam grid)))
    (hguard : ((cov (guardBeam grid)).sub (Sym2Q.diag ((2 * grid) ^ 2))).PSD)
    (hround : ((cov (nyqBeam ops cb grid)).sub
      (cov (ops.convolve cb (guardBeam grid)))).PSD)
    (hdom : ∀ b ∈ nonNaNBeams beams, ((cov cb).sub (cov b)).PSD)
    (hminor : ∀ b ∈ nonNaNBeams beams, ∃ m : ℚ, 0 ≤ m ∧
      (ops.deconvolve (nyqBeam ops cb grid) b).minor = FVal.val m ∧
      ∀ t : ℚ, 0 ≤ t →
        (t ≤ m ↔
          (((cov (nyqBeam ops cb grid)).sub (cov b)).sub
            (Sym2Q.diag (t ^ 2))).PSD)) :
    (underSampled (sampCounts ops cb beams grid) = false →
      nyquistGuard ops cb beams grid = cb) ∧
    (∀ s ∈ sampCounts ops (nyqBeam ops cb grid) beams grid,
      ∃ q : ℚ, s = FVal.val q ∧ 2 ≤ q) := by
  constructor
  · intro h
    rw [nyquistGuard, h]
    rfl
  · intro s hs
    rw [sampCounts] at hs
    obtain ⟨b, hb, rfl⟩ := List.mem_map.mp hs
    obtain ⟨m, hm0, hmem, hiff⟩ := hminor b hb
    rw [hmem]
    refine ⟨m / grid, rfl, ?_⟩
    have h2g : (0 : ℚ) ≤ 2 * grid := by positivity
    have hPSD : (((cov (nyqBeam ops cb grid)).sub (cov b)).sub
        (Sym2Q.diag ((2 * grid) ^ 2))).PSD := by
      have hsum := psd_add _ _ (psd_add _ _ hround (hdom b hb)) hguard
      have ha := congrArg Sym2Q.a hconv
      have hbf := congrArg Sym2Q.b hconv
      have hc := congrArg Sym2Q.c hconv
      simp only [Sym2Q.add] at ha hbf hc
      have e : (((cov (nyqBeam ops cb grid)).sub
            (cov (ops.convolve cb (guardBeam grid)))).add
              ((cov cb).sub (cov b))).add
            ((cov (guardBeam grid)).sub (Sym2Q.diag ((2 * grid) ^ 2)))
          = ((cov (nyqBeam ops cb grid)).sub (cov b)).sub
            (Sym2Q.diag ((2 * grid) ^ 2)) := by
        apply sym2q_ext <;>
          simp only [Sym2Q.add, Sym2Q.sub, Sym2Q.diag] <;> linarith
      rw [e] at hsum
      exact hsum
    have hle : 2 * grid ≤ m := (hiff (2 * grid) h2g).mpr hPSD
    rw [le_div_iff₀ hgrid]
    linarith

theorem nyq_quad_eval : nyqBeam quadOps beamA 2 = beamB := by
  norm_num [nyqBeam, roundBeam, quadOps, beamB, mkBeam, my_ceilF, round_upF,
    my_ceil_five, round_up_zero]

theorem mem_nonNaN_null (b : RBeam) (hb : b ∈ nonNaNBeams [nullBeam]) :
    b = nullBeam := by
  simpa [nonNaNBeams, nullBeam, RBeam.isNaNB, FVal.isNaN] using hb

/-- Witness for C3 at a concrete input: candidate (3, 3, 0) over the single
original null beam on a 2-arcsec grid; the replacement candidate is
(5, 5, 0) (3-4-5 quadrature), whose re-checked sample count is 5/2 ≥ 2. -/
theorem claim3_nyquist_guard_witness :
    (underSampled (sampCounts quadOps beamA [nullBeam] 2) = false →
      nyquistGuard quadOps beamA [nullBeam] 2 = beamA) ∧
    (∀ s ∈ sampCounts quadOps (nyqBeam quadOps beamA 2) [nullBeam] 2,
      ∃ q : ℚ, s = FVal.val q ∧ 2 ≤ q) :=
  claim3_nyquist_guard quadOps covDiag beamA [nullBeam] 2 (by norm_num)
    (by norm_num [quadOps, covDiag, beamA, beamB, guardBeam, mkBeam, Sym2Q.add])
    (by norm_num [covDiag, guardBeam, Sym2Q.sub, Sym2Q.diag, Sym2Q.PSD, mkBeam])
    (by rw [nyq_quad_eval]
        norm_num [quadOps, covDiag, beamB, guardBeam, mkBeam, Sym2Q.sub,
          Sym2Q.PSD])
    (by intro b hb
        rw [mem_nonNaN_null b hb]
        norm_num [covDiag, beamA, nullBeam, mkBeam, Sym2Q.sub, Sym2Q.PSD])
    (by intro b hb
        rw [mem_nonNaN_null b hb]
        refine ⟨5, by norm_num, ?_, ?_⟩
        · show (nyqBeam quadOps beamA 2).minor = FVal.val 5
          rw [nyq_quad_eval]
          rfl
        · intro t ht
          rw [nyq_quad_eval]
          constructor
          · intro h
            refine ⟨?_, ?_, ?_⟩ <;>
              · simp only [covDiag, beamB, nullBeam, mkBeam, Sym2Q.sub,
                  Sym2Q.diag]
                nlinarith
          · intro h
            obtain ⟨h1, _, _⟩ := h
            simp only [covDiag, beamB, nullBeam, mkBeam, Sym2Q.sub,
              Sym2Q.diag] at h1
            nlinarith)
